import Mathlib

/-!
Verification development for the PTAM bundle-adjustment core
(src/include/PTAM/Bundle.hpp).

The repository provides the header only: the structs Camera, Point and Meas
with their inline constructors and Meas's comparison operator are source
code, while the bodies of Bundle::AddCamera, Bundle::AddPoint,
Bundle::AddMeas, Bundle::Compute and the ModifyLambda helpers are declared
but not present.  Definitions embedding the inline source are documented as
such; definitions for the missing bodies carry a doc comment starting with
"Modelled from the spec:" and follow the specification text.

External collaborator types (TooN SE3 poses, fixed-size vectors, the ATAN
camera model) are out of scope of the core and are treated as abstract type
parameters P (pose), V (3-vector position), X (2-vector pixel); the pose
exponential-map update and the point additive update are abstract functions
supplied to the solver model.  Numeric solver scratch state (Hessian and
gradient accumulators, cached Jacobians) is per-iteration intermediate data
that none of the verified properties mention and is omitted from the state.
-/

set_option autoImplicit false

namespace PTAM

/-- From the source (Bundle.hpp, struct Camera, lines 43-50): a keyframe
holds a fixed flag and its current world-from-camera pose.  The trial pose
se3CfWNew, the 6 by 6 accumulator, the gradient accumulator and the reduced
system row offset are solver scratch state; the trial pose is represented
in the solver model below by the atomic commit of accepted steps. -/
structure Camera (P : Type) where
  bFixed : Bool
  se3CfW : P
  deriving DecidableEq

/-- From the source (Bundle.hpp, struct Point, lines 63-84): a map point
holds its position, the observation counter nMeasurements, the outlier
counter nOutliers and the set sCameras of camera indices observing it.
The 3 by 3 accumulator, gradient accumulator, regularized inverse and the
off-diagonal pair script are solver scratch state and are omitted. -/
structure Point (V : Type) where
  v3Pos : V
  nMeasurements : Int
  nOutliers : Int
  sCameras : Finset Int
  deriving DecidableEq

/-- From the source (Point constructor, lines 67-70): the constructor zeroes
nMeasurements and nOutliers; sCameras is default-constructed empty; the
position is written by the caller and is taken here as an argument. -/
def Point.init {V : Type} (v3Pos : V) : Point V :=
  { v3Pos := v3Pos, nMeasurements := 0, nOutliers := 0, sCameras := ∅ }

/-- From the source (Bundle.hpp, struct Meas, lines 90-125): a measurement
records the point index p, the camera index c, the bad flag bBad, the found
pixel and the cached inverse noise scale.  The whitened residual, the
Jacobian blocks and the temporary projection quantities are per-iteration
numeric scratch and are omitted.  The noise scale is kept as the raw
variance because the square root lives in the external math library. -/
structure Meas (X : Type) where
  p : Int
  c : Int
  bBad : Bool
  v2Found : X
  dSqrtInvNoise : ℚ
  deriving DecidableEq

/-- From the source (Meas constructor, line 94): the constructor sets bBad
to false and leaves every other field indeterminate; the indeterminate
fields are taken here as arguments. -/
def Meas.init {X : Type} (p c : Int) (v2Found : X) (dSqrtInvNoise : ℚ) : Meas X :=
  { p := p, c := c, bBad := false, v2Found := v2Found, dSqrtInvNoise := dSqrtInvNoise }

/-- From the source (Meas comparison operator, lines 107-109):
c < rhs.c, or c == rhs.c and p < rhs.p. -/
def Meas.lt {X : Type} (m rhs : Meas X) : Bool :=
  decide (m.c < rhs.c) || (m.c == rhs.c && decide (m.p < rhs.p))

/-- The observation-graph part of the Bundle class (fields mvPoints,
mvCameras, mMeasList of Bundle.hpp, lines 231-233), with the C++ vectors
and the measurement list modelled as Lean lists. -/
structure Bundle (P V X : Type) where
  mvPoints : List (Point V)
  mvCameras : List (Camera P)
  mMeasList : List (Meas X)

/-- A bundle before any population call. -/
def emptyBundle {P V X : Type} : Bundle P V X :=
  { mvPoints := [], mvCameras := [], mMeasList := [] }

/-- Modelled from the spec: the body of Bundle::AddCamera is missing from
the source (only the declaration at Bundle.hpp line 150 exists).  Spec
sections 4.1 and 6: add camera(pose, fixed) appends the camera and returns
a zero-based sequential index assigned in call order. -/
def AddCamera {P V X : Type} (b : Bundle P V X) (se3CamFromWorld : P) (bFixed : Bool) :
    Bundle P V X × Int :=
  ({ b with mvCameras := b.mvCameras ++ [{ bFixed := bFixed, se3CfW := se3CamFromWorld }] },
   (b.mvCameras.length : Int))

/-- Modelled from the spec: the body of Bundle::AddPoint is missing from
the source (only the declaration at Bundle.hpp line 159 exists).  Spec
sections 4.1 and 6: add point(position) appends the point and returns a
zero-based sequential index assigned in call order. -/
def AddPoint {P V X : Type} (b : Bundle P V X) (v3Pos : V) : Bundle P V X × Int :=
  ({ b with mvPoints := b.mvPoints ++ [Point.init v3Pos] },
   (b.mvPoints.length : Int))

/-- Record one observation on the point at (downward-counting) index j:
increment its observation counter and insert the observing camera into its
camera set.  Helper for AddMeas. -/
def insertObs {V : Type} (nCam : Int) : Int → List (Point V) → List (Point V)
  | _, [] => []
  | j, pt :: rest =>
    if j = 0 then
      { pt with nMeasurements := pt.nMeasurements + 1,
                sCameras := insert nCam pt.sCameras } :: rest
    else
      pt :: insertObs nCam (j - 1) rest

/-- Modelled from the spec: the body of Bundle::AddMeas is missing from the
source (only the declaration at Bundle.hpp line 169 exists).  Spec sections
4.1 and 6: add measurement(camera index, point index, pixel, noise
variance) has no return value, appends the measurement to storage and
updates the referenced point's camera-set and observation count; it fails,
leaving the bundle unchanged, if either index is out of range.  The C++
void mutation is modelled as returning the next bundle state. -/
def AddMeas {P V X : Type} (b : Bundle P V X) (nCam nPoint : Int) (v2Pos : X)
    (dSigmaSquared : ℚ) : Bundle P V X :=
  if 0 ≤ nCam ∧ nCam < (b.mvCameras.length : Int) ∧
     0 ≤ nPoint ∧ nPoint < (b.mvPoints.length : Int) then
    { b with mMeasList := b.mMeasList ++ [Meas.init nPoint nCam v2Pos dSigmaSquared],
             mvPoints := insertObs nCam nPoint b.mvPoints }
  else b

/-- One graph-population call, for reasoning about arbitrary call
sequences. -/
inductive GraphOp (P V X : Type) where
  | addCamera (pose : P) (bFixed : Bool)
  | addPoint (pos : V)
  | addMeas (nCam nPoint : Int) (v2Pos : X) (sigmaSq : ℚ)

/-- Apply one population call to a bundle, discarding the returned index. -/
def applyOp {P V X : Type} (b : Bundle P V X) : GraphOp P V X → Bundle P V X
  | .addCamera pose f => (AddCamera b pose f).1
  | .addPoint v => (AddPoint b v).1
  | .addMeas c p x s => AddMeas b c p x s

/-- Apply a sequence of population calls in order. -/
def applyOps {P V X : Type} (b : Bundle P V X) (ops : List (GraphOp P V X)) : Bundle P V X :=
  ops.foldl applyOp b

/-- Does this call add a camera? -/
def isAddCameraOp {P V X : Type} : GraphOp P V X → Bool
  | .addCamera _ _ => true
  | _ => false

/-- Does this call add a point? -/
def isAddPointOp {P V X : Type} : GraphOp P V X → Bool
  | .addPoint _ => true
  | _ => false

/-- The set of camera indices appearing in stored measurements that
reference point index i. -/
def camsOf {X : Type} (ms : List (Meas X)) (i : Int) : Finset Int :=
  ((ms.filter (fun m => m.p == i)).map (fun m => m.c)).toFinset

/-- Every stored measurement references a previously added camera and a
previously added point. -/
def MeasIndicesValid {P V X : Type} (b : Bundle P V X) : Prop :=
  ∀ m ∈ b.mMeasList, 0 ≤ m.p ∧ m.p < (b.mvPoints.length : Int) ∧
    0 ≤ m.c ∧ m.c < (b.mvCameras.length : Int)

/-- Every point's camera-set equals exactly the set of camera indices
appearing in stored measurements that reference it. -/
def CamSetInv {P V X : Type} (b : Bundle P V X) : Prop :=
  ∀ (i : ℕ) (pt : Point V), b.mvPoints[i]? = some pt →
    pt.sCameras = camsOf b.mMeasList (i : Int)

lemma insertObs_length {V : Type} (nCam : Int) (j : Int) (pts : List (Point V)) :
    (insertObs nCam j pts).length = pts.length := by
  induction pts generalizing j with
  | nil => rfl
  | cons pt rest ih =>
    by_cases h : j = 0 <;> simp [insertObs, h, ih]

lemma insertObs_getElem {V : Type} (nCam : Int) (pts : List (Point V)) (j : Int) (i : ℕ) :
    (insertObs nCam j pts)[i]? =
      (pts[i]?).map (fun pt =>
        if (i : Int) = j then
          { pt with nMeasurements := pt.nMeasurements + 1,
                    sCameras := insert nCam pt.sCameras }
        else pt) := by
  induction pts generalizing j i with
  | nil => simp [insertObs]
  | cons pt rest ih =>
    cases i with
    | zero =>
      by_cases hj : j = 0
      · subst hj; simp [insertObs]
      · simp only [insertObs, if_neg hj, List.getElem?_cons_zero, Option.map_some']
        rw [if_neg (by omega : ¬ (((0 : ℕ) : Int) = j))]
    | succ k =>
      by_cases hj : j = 0
      · subst hj
        have hstep : insertObs nCam 0 (pt :: rest) =
            { pt with nMeasurements := pt.nMeasurements + 1,
                      sCameras := insert nCam pt.sCameras } :: rest := by
          simp [insertObs]
        rw [hstep, List.getElem?_cons_succ]
        cases hrk : rest[k]? with
        | none => simp [List.getElem?_cons_succ, hrk]
        | some q =>
          simp only [List.getElem?_cons_succ, hrk, Option.map_some']
          rw [if_neg (by omega : ¬ (((k + 1 : ℕ) : Int) = (0 : Int)))]
      · have hstep : insertObs nCam j (pt :: rest) = pt :: insertObs nCam (j - 1) rest := by
          simp [insertObs, hj]
        rw [hstep, List.getElem?_cons_succ, ih (j - 1) k]
        cases hrk : rest[k]? with
        | none => simp [List.getElem?_cons_succ, hrk]
        | some q =>
          simp only [List.getElem?_cons_succ, hrk, Option.map_some']
          by_cases hc : ((k : ℕ) : Int) = j - 1
          · rw [if_pos hc, if_pos (by omega : (((k + 1 : ℕ) : Int) = j))]
          · rw [if_neg hc, if_neg (by omega : ¬ (((k + 1 : ℕ) : Int) = j))]

lemma camsOf_append {X : Type} (ms : List (Meas X)) (m : Meas X) (i : Int) :
    camsOf (ms ++ [m]) i =
      if m.p = i then insert m.c (camsOf ms i) else camsOf ms i := by
  by_cases h : m.p = i
  · simp [camsOf, List.filter_append, h, Finset.insert_eq, Finset.union_comm]
  · simp [camsOf, List.filter_append, h]

/-- The combined population invariant: measurement indices are in range and
every point's camera-set matches its measurements. -/
def GraphInv {P V X : Type} (b : Bundle P V X) : Prop :=
  MeasIndicesValid b ∧ CamSetInv b

lemma graphInv_empty {P V X : Type} : GraphInv (emptyBundle : Bundle P V X) := by
  constructor
  · intro m hm; simp [emptyBundle] at hm
  · intro i pt hpt; simp [emptyBundle] at hpt

lemma graphInv_addCamera {P V X : Type} {b : Bundle P V X} (h : GraphInv b)
    (pose : P) (f : Bool) : GraphInv (AddCamera b pose f).1 := by
  obtain ⟨h1, h2⟩ := h
  constructor
  · intro m hm
    have := h1 m hm
    simp only [AddCamera, List.length_append, List.length_cons, List.length_nil] at *
    push_cast
    omega
  · intro i pt hpt
    exact h2 i pt hpt

lemma graphInv_addPoint {P V X : Type} {b : Bundle P V X} (h : GraphInv b)
    (v : V) : GraphInv (AddPoint b v).1 := by
  obtain ⟨h1, h2⟩ := h
  constructor
  · intro m hm
    have := h1 m hm
    simp only [AddPoint, List.length_append, List.length_cons, List.length_nil] at *
    push_cast
    omega
  · intro i pt hpt
    simp only [AddPoint] at hpt ⊢
    rcases lt_or_ge i b.mvPoints.length with hlt | hge
    · rw [List.getElem?_append_left hlt] at hpt
      exact h2 i pt hpt
    · have hlen : i < b.mvPoints.length + 1 := by
        by_contra hcon
        rw [List.getElem?_eq_none (by simp; omega)] at hpt
        exact Option.noConfusion hpt
      have hi : i = b.mvPoints.length := by omega
      subst hi
      rw [List.getElem?_append_right (le_refl _)] at hpt
      simp [Point.init] at hpt
      have hfilter : b.mMeasList.filter (fun m => m.p == (b.mvPoints.length : Int)) = [] := by
        rw [List.filter_eq_nil_iff]
        intro m hm
        have := (h1 m hm).2.1
        simp only [beq_iff_eq]
        omega
      rw [← hpt]
      simp [Point.init, camsOf, hfilter]

lemma graphInv_addMeas {P V X : Type} {b : Bundle P V X} (h : GraphInv b)
    (nCam nPoint : Int) (x : X) (s : ℚ) : GraphInv (AddMeas b nCam nPoint x s) := by
  obtain ⟨h1, h2⟩ := h
  by_cases hr : 0 ≤ nCam ∧ nCam < (b.mvCameras.length : Int) ∧
      0 ≤ nPoint ∧ nPoint < (b.mvPoints.length : Int)
  · rw [AddMeas, if_pos hr]
    constructor
    · intro m hm
      simp only [List.mem_append, List.mem_singleton] at hm
      rcases hm with hm | hm
      · have := h1 m hm
        simp only [insertObs_length]
        exact this
      · subst hm
        simp only [Meas.init, insertObs_length]
        exact ⟨hr.2.2.1, hr.2.2.2, hr.1, hr.2.1⟩
    · intro i pt hpt
      simp only [insertObs_getElem] at hpt
      cases hb : b.mvPoints[i]? with
      | none => rw [hb] at hpt; exact Option.noConfusion hpt
      | some q =>
        rw [hb] at hpt
        simp only [Option.map_some'] at hpt
        have hq := h2 i q hb
        rw [camsOf_append]
        simp only [Meas.init]
        by_cases hip : (i : Int) = nPoint
        · rw [if_pos (by omega : nPoint = (i : Int))]
          rw [if_pos hip] at hpt
          rw [← Option.some.inj hpt]
          simp [hq]
        · rw [if_neg (by omega : ¬ nPoint = (i : Int))]
          rw [if_neg hip] at hpt
          rw [← Option.some.inj hpt]
          exact hq
  · rw [AddMeas, if_neg hr]
    exact ⟨h1, h2⟩

lemma graphInv_applyOp {P V X : Type} {b : Bundle P V X} (h : GraphInv b)
    (op : GraphOp P V X) : GraphInv (applyOp b op) := by
  cases op with
  | addCamera pose f => exact graphInv_addCamera h pose f
  | addPoint v => exact graphInv_addPoint h v
  | addMeas c p x s => exact graphInv_addMeas h c p x s

lemma graphInv_applyOps {P V X : Type} (ops : List (GraphOp P V X)) :
    ∀ b : Bundle P V X, GraphInv b → GraphInv (applyOps b ops) := by
  induction ops with
  | nil => intro b h; exact h
  | cons op rest ih =>
    intro b h
    exact ih (applyOp b op) (graphInv_applyOp h op)

/-- Claim C5: after any sequence of AddCamera, AddPoint and AddMeas calls
starting from the empty bundle, each point's camera set sCameras equals
exactly the set of camera indices appearing in the stored measurements that
reference that point; in particular every AddMeas call preserves this
invariant. -/
theorem camSet_matches_measurements {P V X : Type} (ops : List (GraphOp P V X))
    (i : ℕ) (pt : Point V) (hpt : (applyOps emptyBundle ops).mvPoints[i]? = some pt) :
    pt.sCameras = camsOf (applyOps emptyBundle ops).mMeasList (i : Int) :=
  (graphInv_applyOps ops emptyBundle graphInv_empty).2 i pt hpt

/-- Witness for C5 at a concrete call sequence: two cameras, one point, two
measurements of that point, whose camera set comes out as the pair of camera
indices. -/
theorem camSet_matches_measurements_witness :
    ∃ pt : Point Int,
      (applyOps (emptyBundle : Bundle Int Int Int)
          [GraphOp.addCamera 5 false, GraphOp.addCamera 7 true, GraphOp.addPoint 3,
           GraphOp.addMeas 0 0 11 1, GraphOp.addMeas 1 0 13 1]).mvPoints[0]? = some pt ∧
      pt.sCameras =
        camsOf (applyOps (emptyBundle : Bundle Int Int Int)
          [GraphOp.addCamera 5 false, GraphOp.addCamera 7 true, GraphOp.addPoint 3,
           GraphOp.addMeas 0 0 11 1, GraphOp.addMeas 1 0 13 1]).mMeasList ((0 : ℕ) : Int) := by
  refine ⟨_, rfl, ?_⟩
  exact camSet_matches_measurements _ 0 _ rfl

/-- Claim C7: AddMeas fails, leaving the bundle (measurement store and all
point camera-sets) unchanged, whenever the given camera index or point index
is out of range of the previously added cameras and points.  The C++ call is
void, so the model returns only the next state and no separate value. -/
theorem addMeas_out_of_range_noop {P V X : Type} (b : Bundle P V X)
    (nCam nPoint : Int) (x : X) (s : ℚ)
    (h : nCam < 0 ∨ (b.mvCameras.length : Int) ≤ nCam ∨
         nPoint < 0 ∨ (b.mvPoints.length : Int) ≤ nPoint) :
    AddMeas b nCam nPoint x s = b := by
  rw [AddMeas, if_neg (by omega)]

/-- Witness for C7: with one camera and one point added, camera index 5 is
out of range and the call leaves the bundle unchanged. -/
theorem addMeas_out_of_range_noop_witness :
    AddMeas (applyOps (emptyBundle : Bundle Int Int Int)
        [GraphOp.addCamera 1 false, GraphOp.addPoint 2]) 5 0 9 1 =
      applyOps (emptyBundle : Bundle Int Int Int)
        [GraphOp.addCamera 1 false, GraphOp.addPoint 2] :=
  addMeas_out_of_range_noop _ 5 0 9 1 (by decide)

lemma applyOp_camLength {P V X : Type} (b : Bundle P V X) (op : GraphOp P V X) :
    (applyOp b op).mvCameras.length =
      b.mvCameras.length + (if isAddCameraOp op then 1 else 0) := by
  cases op with
  | addCamera pose f => simp [applyOp, AddCamera, isAddCameraOp]
  | addPoint v => simp [applyOp, AddPoint, isAddCameraOp]
  | addMeas c p x s =>
    simp only [applyOp, AddMeas, isAddCameraOp]
    split <;> simp

lemma applyOp_pointLength {P V X : Type} (b : Bundle P V X) (op : GraphOp P V X) :
    (applyOp b op).mvPoints.length =
      b.mvPoints.length + (if isAddPointOp op then 1 else 0) := by
  cases op with
  | addCamera pose f => simp [applyOp, AddCamera, isAddPointOp]
  | addPoint v => simp [applyOp, AddPoint, isAddPointOp]
  | addMeas c p x s =>
    simp only [applyOp, AddMeas, isAddPointOp]
    split <;> simp [insertObs_length]

lemma applyOps_camLength {P V X : Type} (ops : List (GraphOp P V X)) :
    ∀ b : Bundle P V X,
      (applyOps b ops).mvCameras.length = b.mvCameras.length + ops.countP isAddCameraOp := by
  induction ops with
  | nil => intro b; simp [applyOps]
  | cons op rest ih =>
    intro b
    have h := ih (applyOp b op)
    simp only [applyOps, List.foldl_cons] at h ⊢
    rw [h, applyOp_camLength, List.countP_cons]
    by_cases hop : isAddCameraOp op <;> (simp [hop]; try omega)

lemma applyOps_pointLength {P V X : Type} (ops : List (GraphOp P V X)) :
    ∀ b : Bundle P V X,
      (applyOps b ops).mvPoints.length = b.mvPoints.length + ops.countP isAddPointOp := by
  induction ops with
  | nil => intro b; simp [applyOps]
  | cons op rest ih =>
    intro b
    have h := ih (applyOp b op)
    simp only [applyOps, List.foldl_cons] at h ⊢
    rw [h, applyOp_pointLength, List.countP_cons]
    by_cases hop : isAddPointOp op <;> (simp [hop]; try omega)

/-- Claim C8: indices are zero-based and assigned sequentially in call
order: after any population sequence containing k AddCamera calls, the next
AddCamera call returns k (so the n-th AddCamera call overall returns n-1),
and likewise for AddPoint. -/
theorem add_indices_sequential {P V X : Type} (ops : List (GraphOp P V X))
    (pose : P) (f : Bool) (v : V) :
    (AddCamera (applyOps emptyBundle ops) pose f).2 = (ops.countP isAddCameraOp : Int) ∧
    (AddPoint (applyOps emptyBundle ops) v).2 = (ops.countP isAddPointOp : Int) := by
  constructor
  · have h := applyOps_camLength ops (emptyBundle (P := P) (V := V) (X := X))
    simp only [AddCamera]
    rw [h]
    simp [emptyBundle]
  · have h := applyOps_pointLength ops (emptyBundle (P := P) (V := V) (X := X))
    simp only [AddPoint]
    rw [h]
    simp [emptyBundle]

/-- Claim C9: the source comparison operator of Meas orders measurements
first by camera index and then, within equal cameras, by point index.  It is
irreflexive, transitive and total up to equality of the (camera, point) key,
and in any list pairwise-sorted by it camera indices are monotone (so each
camera's measurements are contiguous) and point indices are monotone within
one camera, as the per-camera lookup tables require. -/
theorem measLt_strict_total_order {X : Type} :
    (∀ m : Meas X, Meas.lt m m = false) ∧
    (∀ a b c : Meas X, Meas.lt a b = true → Meas.lt b c = true → Meas.lt a c = true) ∧
    (∀ a b : Meas X, Meas.lt a b = true ∨ Meas.lt b a = true ∨ (a.c = b.c ∧ a.p = b.p)) ∧
    (∀ l : List (Meas X), l.Pairwise (fun a b => Meas.lt b a = false) →
      ∀ i j : Fin l.length, i < j →
        (l.get i).c ≤ (l.get j).c ∧
        ((l.get i).c = (l.get j).c → (l.get i).p ≤ (l.get j).p)) := by
  refine ⟨?_, ?_, ?_, ?_⟩
  · intro m
    simp only [Meas.lt, Bool.or_eq_false_iff, Bool.and_eq_false_iff, decide_eq_false_iff_not]
    omega
  · intro a b c hab hbc
    simp only [Meas.lt, Bool.or_eq_true, Bool.and_eq_true, decide_eq_true_eq,
      beq_iff_eq] at hab hbc ⊢
    omega
  · intro a b
    simp only [Meas.lt, Bool.or_eq_true, Bool.and_eq_true, decide_eq_true_eq, beq_iff_eq]
    omega
  · intro l hl i j hij
    have h := List.pairwise_iff_get.mp hl i j hij
    simp only [Meas.lt, Bool.or_eq_false_iff, Bool.and_eq_false_iff,
      decide_eq_false_iff_not, beq_eq_false_iff_ne, ne_eq] at h
    omega

/-- Witness for C9: transitivity applied at concrete measurements, and the
sortedness consequence applied at a concrete three-element sorted list. -/
theorem measLt_strict_total_order_witness :
    Meas.lt (Meas.init 0 0 (0 : Int) 1) (Meas.init 0 1 0 1) = true ∧
    ([Meas.init 7 0 (0 : Int) 1, Meas.init 2 1 0 1, Meas.init 5 1 0 1].get ⟨0, by decide⟩).c ≤
      ([Meas.init 7 0 (0 : Int) 1, Meas.init 2 1 0 1, Meas.init 5 1 0 1].get ⟨2, by decide⟩).c := by
  constructor
  · exact (measLt_strict_total_order.2.1) (Meas.init 0 0 (0 : Int) 1)
      (Meas.init 1 0 0 1) (Meas.init 0 1 0 1) (by decide) (by decide)
  · exact ((measLt_strict_total_order.2.2.2)
      [Meas.init 7 0 (0 : Int) 1, Meas.init 2 1 0 1, Meas.init 5 1 0 1]
      (by decide) ⟨0, by decide⟩ ⟨2, by decide⟩ (by decide)).1

/-- Claim C10: a newly constructed measurement starts with its bad flag
false, and a newly constructed point starts with zero observation count and
zero outlier count, exactly as the inline constructors in the source set
them. -/
theorem init_flags_and_counters {V X : Type} (p c : Int) (x : X) (s : ℚ) (v : V) :
    (Meas.init p c x s).bBad = false ∧
    (Point.init v).nMeasurements = 0 ∧ (Point.init v).nOutliers = 0 :=
  ⟨rfl, rfl, rfl⟩

/-! ## The LM step controller

The body of Bundle::Compute (with Do_LM_Step, FindNewError and the
ModifyLambda helpers) is missing from the source; only the declarations at
Bundle.hpp lines 179 and 219-229 and the state fields at lines 240-254 are
present.  The controller below is modelled from spec sections 4.7, 5 and 7.
The numeric content of one trial (assembly, Schur solve, error comparison)
involves the external projection model and linear algebra and is abstracted
as an oracle: each iteration the environment reports whether the reduced
solve failed, whether the trial error was not lower (rejected), or that the
trial was accepted with given camera/point increments and a convergence
verdict.  The abort flag, written by another thread and only read by the
solver at iteration starts, is modelled as the sequence of values it shows
at those reads. -/

/-- Terminal states of the LM step controller (spec section 4.7). -/
inductive BAStatus where
  | running
  | converged
  | maxIters
  | aborted
  | failed
  deriving DecidableEq

/-- The controller state for the lifetime of one Compute call: the cameras
and point positions (committed values only; a trial lives only inside one
iteration and is committed atomically on accept), the damping factor
mdLambda and its growth multiplier mdLambdaFactor (Bundle.hpp lines
243-244), the accepted-step counter mnAccepted (line 248) and the
controller status. -/
structure LMState (P V : Type) where
  cameras : List (Camera P)
  points : List V
  mdLambda : ℚ
  mdLambdaFactor : ℚ
  mnAccepted : ℕ
  status : BAStatus
  deriving DecidableEq

/-- Configuration of one Compute call: the iteration cap (gvar
Bundle.MaxIterations) and the maximum damping beyond which a still-failing
iteration escalates to FAILED (spec section 4.7). -/
structure LMConfig where
  maxIterations : ℕ
  maxLambda : ℚ

/-- What the abstracted numeric trial of one iteration reports back to the
controller: a failed reduced-system decomposition, a trial whose error was
not lower (rejected), or an accepted trial carrying the per-camera pose
increments, the per-point position increments and the convergence verdict
of the update-magnitude test. -/
inductive TrialOutcome (D6 D3 : Type) where
  | solveFailed
  | rejected
  | accepted (dc : ℕ → D6) (dp : ℕ → D3) (conv : Bool)

/-- Modelled from the spec: the body of ModifyLambda_GoodStep is missing
(declaration at Bundle.hpp line 228).  Spec section 4.7: on an accepted
trial the damping factor shrinks by a fixed multiplicative factor and the
growth multiplier resets; the exact constants are left open by the spec
(section 9) and are fixed here as 3/10 and 2. -/
def ModifyLambda_GoodStep {P V : Type} (st : LMState P V) : LMState P V :=
  { st with mdLambdaFactor := 2, mdLambda := st.mdLambda * (3 / 10) }

/-- Modelled from the spec: the body of ModifyLambda_BadStep is missing
(declaration at Bundle.hpp line 229).  Spec section 4.7: on a rejected
trial the damping grows by the current multiplier mdLambdaFactor
(Bundle.hpp line 244), which itself grows so that repeated rejections
escalate. -/
def ModifyLambda_BadStep {P V : Type} (st : LMState P V) : LMState P V :=
  { st with mdLambda := st.mdLambda * st.mdLambdaFactor,
            mdLambdaFactor := st.mdLambdaFactor * 2 }

/-- Apply the accepted camera increments: camera i receives increment dc i
through the abstract pose update (the rigid-motion exponential map of the
external library), except that a fixed camera receives no pose update
(spec section 3, global invariants). -/
def commitCams {P D6 : Type} (applyPose : P → D6 → P) (dc : ℕ → D6) :
    ℕ → List (Camera P) → List (Camera P)
  | _, [] => []
  | i, cam :: rest =>
    (if cam.bFixed then cam
     else { cam with se3CfW := applyPose cam.se3CfW (dc i) }) ::
      commitCams applyPose dc (i + 1) rest

/-- Apply the accepted point increments: point i receives increment dp i
through the abstract additive update. -/
def commitPoints {V D3 : Type} (applyPoint : V → D3 → V) (dp : ℕ → D3) :
    ℕ → List V → List V
  | _, [] => []
  | i, v :: rest => applyPoint v (dp i) :: commitPoints applyPoint dp (i + 1) rest

/-- Modelled from the spec (section 4.7): handling of a rejected trial or a
failed reduced solve: discard the trial (cameras and points untouched),
grow the damping, and escalate to FAILED once the damping passes the
configured maximum. -/
def lmReject {P V : Type} (cfg : LMConfig) (st : LMState P V) : LMState P V :=
  let st' := ModifyLambda_BadStep st
  if cfg.maxLambda < st'.mdLambda then { st' with status := BAStatus.failed } else st'

/-- Modelled from the spec (section 4.7): one LM iteration after the abort
and iteration-cap checks: an accepted trial commits the trial poses and
positions atomically, shrinks the damping, bumps the accepted counter and
checks convergence; a rejected trial or failed solve goes through
lmReject. -/
def lmIter {P V D6 D3 : Type} (cfg : LMConfig) (applyPose : P → D6 → P)
    (applyPoint : V → D3 → V) (st : LMState P V) :
    TrialOutcome D6 D3 → LMState P V
  | TrialOutcome.solveFailed => lmReject cfg st
  | TrialOutcome.rejected => lmReject cfg st
  | TrialOutcome.accepted dc dp conv =>
    ModifyLambda_GoodStep
      { st with cameras := commitCams applyPose dc 0 st.cameras,
                points := commitPoints applyPoint dp 0 st.points,
                mnAccepted := st.mnAccepted + 1,
                status := if conv then BAStatus.converged else BAStatus.running }

/-- Modelled from the spec (sections 4.7 and 5): the Compute iteration
loop.  Every iteration boundary first checks for a terminal state, then
reads the externally owned abort flag, then the iteration cap, and only
then runs the nth LM iteration.  The fuel argument makes the recursion
structural; Compute supplies maxIterations + 1, which the cap check never
lets run out. -/
def computeLoop {P V D6 D3 : Type} (cfg : LMConfig) (applyPose : P → D6 → P)
    (applyPoint : V → D3 → V) (abortAt : ℕ → Bool)
    (outs : ℕ → TrialOutcome D6 D3) : ℕ → ℕ → LMState P V → LMState P V
  | 0, _, st => st
  | fuel + 1, n, st =>
    if st.status ≠ BAStatus.running then st
    else if abortAt n then { st with status := BAStatus.aborted }
    else if cfg.maxIterations ≤ n then { st with status := BAStatus.maxIters }
    else
      computeLoop cfg applyPose applyPoint abortAt outs fuel (n + 1)
        (lmIter cfg applyPose applyPoint st (outs n))

/-- Modelled from the spec: the body of Bundle::Compute is missing
(declaration at Bundle.hpp line 179; its comment: returns the number of
accepted update iterations, or negative on error).  Runs the iteration
loop from iteration 0 and returns the accepted-step count on any
non-failed terminal state and the negative error code -1 on FAILED,
together with the final state the caller reads results from. -/
def Compute {P V D6 D3 : Type} (cfg : LMConfig) (applyPose : P → D6 → P)
    (applyPoint : V → D3 → V) (abortAt : ℕ → Bool)
    (outs : ℕ → TrialOutcome D6 D3) (st0 : LMState P V) : Int × LMState P V :=
  (if (computeLoop cfg applyPose applyPoint abortAt outs
        (cfg.maxIterations + 1) 0 st0).status = BAStatus.failed
   then -1
   else ((computeLoop cfg applyPose applyPoint abortAt outs
        (cfg.maxIterations + 1) 0 st0).mnAccepted : Int),
   computeLoop cfg applyPose applyPoint abortAt outs (cfg.maxIterations + 1) 0 st0)

/-- Reading a camera pose back after Compute (Bundle::GetCamera,
declaration at Bundle.hpp line 204). -/
def GetCamera {P V : Type} (st : LMState P V) (n : ℕ) : Option P :=
  (st.cameras[n]?).map (fun cam => cam.se3CfW)

/-- Reading a point position back after Compute (Bundle::GetPoint,
declaration at Bundle.hpp line 195). -/
def GetPoint {P V : Type} (st : LMState P V) (n : ℕ) : Option V :=
  st.points[n]?

lemma computeLoop_not_running {P V D6 D3 : Type} (cfg : LMConfig)
    (applyPose : P → D6 → P) (applyPoint : V → D3 → V) (abortAt : ℕ → Bool)
    (outs : ℕ → TrialOutcome D6 D3) :
    ∀ (fuel n : ℕ) (st : LMState P V), n ≤ cfg.maxIterations →
      cfg.maxIterations < n + fuel →
      (computeLoop cfg applyPose applyPoint abortAt outs fuel n st).status ≠
        BAStatus.running := by
  intro fuel
  induction fuel with
  | zero => intro n st h1 h2; omega
  | succ fuel ih =>
    intro n st h1 h2
    simp only [computeLoop]
    by_cases hs : st.status ≠ BAStatus.running
    · rw [if_pos hs]; exact hs
    · rw [if_neg hs]
      by_cases ha : abortAt n = true
      · rw [if_pos ha]; simp
      · rw [if_neg ha]
        by_cases hm : cfg.maxIterations ≤ n
        · rw [if_pos hm]; simp
        · rw [if_neg hm]
          exact ih (n + 1) _ (by omega) (by omega)

/-- Claim C1: for every populated bundle and abort flag, Compute terminates
in one of the four terminal states; on CONVERGED, MAX_ITERATIONS or ABORTED
it returns the non-negative accepted-iteration counter, and its return value
is negative exactly when it terminates in FAILED. -/
theorem compute_return_code {P V D6 D3 : Type} (cfg : LMConfig)
    (applyPose : P → D6 → P) (applyPoint : V → D3 → V) (abortAt : ℕ → Bool)
    (outs : ℕ → TrialOutcome D6 D3) (st0 : LMState P V)
    (_h0 : st0.status = BAStatus.running) :
    (Compute cfg applyPose applyPoint abortAt outs st0).2.status ≠ BAStatus.running ∧
    ((Compute cfg applyPose applyPoint abortAt outs st0).2.status = BAStatus.converged ∨
     (Compute cfg applyPose applyPoint abortAt outs st0).2.status = BAStatus.maxIters ∨
     (Compute cfg applyPose applyPoint abortAt outs st0).2.status = BAStatus.aborted →
      (Compute cfg applyPose applyPoint abortAt outs st0).1 =
        ((Compute cfg applyPose applyPoint abortAt outs st0).2.mnAccepted : Int) ∧
      0 ≤ (Compute cfg applyPose applyPoint abortAt outs st0).1) ∧
    ((Compute cfg applyPose applyPoint abortAt outs st0).1 < 0 ↔
      (Compute cfg applyPose applyPoint abortAt outs st0).2.status = BAStatus.failed) := by
  refine ⟨?_, ?_, ?_⟩
  · exact computeLoop_not_running cfg applyPose applyPoint abortAt outs
      (cfg.maxIterations + 1) 0 st0 (by omega) (by omega)
  · intro hcase
    have hne : ¬ (computeLoop cfg applyPose applyPoint abortAt outs
        (cfg.maxIterations + 1) 0 st0).status = BAStatus.failed := by
      rcases hcase with h | h | h <;> simp only [Compute] at h <;> simp [h]
    simp only [Compute]
    rw [if_neg hne]
    exact ⟨rfl, Int.natCast_nonneg _⟩
  · constructor
    · intro hneg
      by_contra hf
      simp only [Compute] at hneg hf
      rw [if_neg hf] at hneg
      omega
    · intro hf
      simp only [Compute] at hf ⊢
      rw [if_pos hf]
      omega

/-- Witness for C1: a run where the first trial is accepted and converges;
the return value is the accepted count 1 and the status is CONVERGED. -/
theorem compute_return_code_witness :
    (Compute ⟨5, 100⟩ (fun (p : Int) (d : Int) => p + d) (fun (v : Int) (d : Int) => v + d)
        (fun _ => false) (fun _ => TrialOutcome.accepted (fun _ => 1) (fun _ => 1) true)
        ⟨[⟨false, 3⟩], [4], 1 / 10000, 2, 0, BAStatus.running⟩).2.status ≠
      BAStatus.running ∧
    ((Compute ⟨5, 100⟩ (fun (p : Int) (d : Int) => p + d) (fun (v : Int) (d : Int) => v + d)
        (fun _ => false) (fun _ => TrialOutcome.accepted (fun _ => 1) (fun _ => 1) true)
        ⟨[⟨false, 3⟩], [4], 1 / 10000, 2, 0, BAStatus.running⟩).2.status = BAStatus.converged ∨
     (Compute ⟨5, 100⟩ (fun (p : Int) (d : Int) => p + d) (fun (v : Int) (d : Int) => v + d)
        (fun _ => false) (fun _ => TrialOutcome.accepted (fun _ => 1) (fun _ => 1) true)
        ⟨[⟨false, 3⟩], [4], 1 / 10000, 2, 0, BAStatus.running⟩).2.status = BAStatus.maxIters ∨
     (Compute ⟨5, 100⟩ (fun (p : Int) (d : Int) => p + d) (fun (v : Int) (d : Int) => v + d)
        (fun _ => false) (fun _ => TrialOutcome.accepted (fun _ => 1) (fun _ => 1) true)
        ⟨[⟨false, 3⟩], [4], 1 / 10000, 2, 0, BAStatus.running⟩).2.status = BAStatus.aborted →
      (Compute ⟨5, 100⟩ (fun (p : Int) (d : Int) => p + d) (fun (v : Int) (d : Int) => v + d)
        (fun _ => false) (fun _ => TrialOutcome.accepted (fun _ => 1) (fun _ => 1) true)
        ⟨[⟨false, 3⟩], [4], 1 / 10000, 2, 0, BAStatus.running⟩).1 =
        ((Compute ⟨5, 100⟩ (fun (p : Int) (d : Int) => p + d) (fun (v : Int) (d : Int) => v + d)
        (fun _ => false) (fun _ => TrialOutcome.accepted (fun _ => 1) (fun _ => 1) true)
        ⟨[⟨false, 3⟩], [4], 1 / 10000, 2, 0, BAStatus.running⟩).2.mnAccepted : Int) ∧
      0 ≤ (Compute ⟨5, 100⟩ (fun (p : Int) (d : Int) => p + d) (fun (v : Int) (d : Int) => v + d)
        (fun _ => false) (fun _ => TrialOutcome.accepted (fun _ => 1) (fun _ => 1) true)
        ⟨[⟨false, 3⟩], [4], 1 / 10000, 2, 0, BAStatus.running⟩).1) ∧
    ((Compute ⟨5, 100⟩ (fun (p : Int) (d : Int) => p + d) (fun (v : Int) (d : Int) => v + d)
        (fun _ => false) (fun _ => TrialOutcome.accepted (fun _ => 1) (fun _ => 1) true)
        ⟨[⟨false, 3⟩], [4], 1 / 10000, 2, 0, BAStatus.running⟩).1 < 0 ↔
     (Compute ⟨5, 100⟩ (fun (p : Int) (d : Int) => p + d) (fun (v : Int) (d : Int) => v + d)
        (fun _ => false) (fun _ => TrialOutcome.accepted (fun _ => 1) (fun _ => 1) true)
        ⟨[⟨false, 3⟩], [4], 1 / 10000, 2, 0, BAStatus.running⟩).2.status = BAStatus.failed) :=
  compute_return_code ⟨5, 100⟩ (fun (p : Int) (d : Int) => p + d)
    (fun (v : Int) (d : Int) => v + d) (fun _ => false)
    (fun _ => TrialOutcome.accepted (fun _ => 1) (fun _ => 1) true)
    ⟨[⟨false, 3⟩], [4], 1 / 10000, 2, 0, BAStatus.running⟩ rfl

/-- Claim C3: during one Compute call a rejected trial (or a failed solve,
treated as rejected) strictly increases the damping factor, and an accepted
trial strictly decreases it while it stays strictly positive.  The
hypotheses hold throughout a run: the initial damping is positive, the
initial growth multiplier is 2, a good step resets it to 2 and a bad step
doubles it. -/
theorem damping_monotone {P V D6 D3 : Type} (cfg : LMConfig)
    (applyPose : P → D6 → P) (applyPoint : V → D3 → V) (st : LMState P V)
    (hl : 0 < st.mdLambda) (hf : 1 < st.mdLambdaFactor) :
    st.mdLambda < (lmIter cfg applyPose applyPoint st TrialOutcome.rejected).mdLambda ∧
    st.mdLambda < (lmIter cfg applyPose applyPoint st TrialOutcome.solveFailed).mdLambda ∧
    (∀ (dc : ℕ → D6) (dp : ℕ → D3) (conv : Bool),
      (lmIter cfg applyPose applyPoint st
          (TrialOutcome.accepted dc dp conv)).mdLambda < st.mdLambda ∧
      0 < (lmIter cfg applyPose applyPoint st
          (TrialOutcome.accepted dc dp conv)).mdLambda) := by
  have hreject : (lmReject cfg st).mdLambda = st.mdLambda * st.mdLambdaFactor := by
    simp only [lmReject, ModifyLambda_BadStep]
    split <;> rfl
  have hgrow : st.mdLambda < st.mdLambda * st.mdLambdaFactor :=
    (lt_mul_iff_one_lt_right hl).mpr hf
  refine ⟨?_, ?_, ?_⟩
  · show st.mdLambda < (lmReject cfg st).mdLambda
    rw [hreject]; exact hgrow
  · show st.mdLambda < (lmReject cfg st).mdLambda
    rw [hreject]; exact hgrow
  · intro dc dp conv
    have hacc : (lmIter cfg applyPose applyPoint st
        (TrialOutcome.accepted dc dp conv)).mdLambda = st.mdLambda * (3 / 10) := rfl
    rw [hacc]
    constructor
    · exact mul_lt_of_lt_one_right hl (by norm_num)
    · exact mul_pos hl (by norm_num)

/-- Witness for C3 at a concrete state with damping 1/10 and multiplier 2. -/
theorem damping_monotone_witness :
    (⟨[], [], 1 / 10, 2, 0, BAStatus.running⟩ : LMState Int Int).mdLambda <
      (lmIter ⟨5, 100⟩ (fun (p : Int) (d : Int) => p + d) (fun (v : Int) (d : Int) => v + d)
        ⟨[], [], 1 / 10, 2, 0, BAStatus.running⟩ TrialOutcome.rejected).mdLambda ∧
    (⟨[], [], 1 / 10, 2, 0, BAStatus.running⟩ : LMState Int Int).mdLambda <
      (lmIter ⟨5, 100⟩ (fun (p : Int) (d : Int) => p + d) (fun (v : Int) (d : Int) => v + d)
        ⟨[], [], 1 / 10, 2, 0, BAStatus.running⟩ TrialOutcome.solveFailed).mdLambda ∧
    (∀ (dc : ℕ → Int) (dp : ℕ → Int) (conv : Bool),
      (lmIter ⟨5, 100⟩ (fun (p : Int) (d : Int) => p + d) (fun (v : Int) (d : Int) => v + d)
          ⟨[], [], 1 / 10, 2, 0, BAStatus.running⟩
          (TrialOutcome.accepted dc dp conv)).mdLambda <
        (⟨[], [], 1 / 10, 2, 0, BAStatus.running⟩ : LMState Int Int).mdLambda ∧
      0 < (lmIter ⟨5, 100⟩ (fun (p : Int) (d : Int) => p + d) (fun (v : Int) (d : Int) => v + d)
          ⟨[], [], 1 / 10, 2, 0, BAStatus.running⟩
          (TrialOutcome.accepted dc dp conv)).mdLambda) :=
  damping_monotone ⟨5, 100⟩ (fun (p : Int) (d : Int) => p + d)
    (fun (v : Int) (d : Int) => v + d) ⟨[], [], 1 / 10, 2, 0, BAStatus.running⟩
    (by norm_num) (by norm_num)

/-- Claim C6: if the abort flag reads true at the very first iteration
boundary, Compute returns a non-negative value and every camera pose and
point position read afterwards equals the value it started with: no partial
update is applied. -/
theorem abort_before_first_iteration {P V D6 D3 : Type} (cfg : LMConfig)
    (applyPose : P → D6 → P) (applyPoint : V → D3 → V) (abortAt : ℕ → Bool)
    (outs : ℕ → TrialOutcome D6 D3) (st0 : LMState P V)
    (h0 : st0.status = BAStatus.running) (ha : abortAt 0 = true) :
    0 ≤ (Compute cfg applyPose applyPoint abortAt outs st0).1 ∧
    (∀ n, GetCamera (Compute cfg applyPose applyPoint abortAt outs st0).2 n =
      GetCamera st0 n) ∧
    (∀ n, GetPoint (Compute cfg applyPose applyPoint abortAt outs st0).2 n =
      GetPoint st0 n) ∧
    (Compute cfg applyPose applyPoint abortAt outs st0).2.status = BAStatus.aborted := by
  have hloop : computeLoop cfg applyPose applyPoint abortAt outs
      (cfg.maxIterations + 1) 0 st0 = { st0 with status := BAStatus.aborted } := by
    simp [computeLoop, h0, ha]
  refine ⟨?_, ?_, ?_, ?_⟩
  · simp only [Compute, hloop]
    rw [if_neg (by simp)]
    exact Int.natCast_nonneg _
  · intro n
    simp only [Compute, hloop, GetCamera]
  · intro n
    simp only [Compute, hloop, GetPoint]
  · simp only [Compute, hloop]

/-- Witness for C6: the abort flag is true at the first read; the run
returns non-negatively with the initial camera and point unchanged. -/
theorem abort_before_first_iteration_witness :
    0 ≤ (Compute ⟨5, 100⟩ (fun (p : Int) (d : Int) => p + d) (fun (v : Int) (d : Int) => v + d)
        (fun _ => true) (fun _ => TrialOutcome.rejected)
        ⟨[⟨false, 3⟩], [4], 1 / 10000, 2, 0, BAStatus.running⟩).1 ∧
    (∀ n, GetCamera (Compute ⟨5, 100⟩ (fun (p : Int) (d : Int) => p + d)
        (fun (v : Int) (d : Int) => v + d) (fun _ => true) (fun _ => TrialOutcome.rejected)
        ⟨[⟨false, 3⟩], [4], 1 / 10000, 2, 0, BAStatus.running⟩).2 n =
      GetCamera (⟨[⟨false, 3⟩], [4], 1 / 10000, 2, 0, BAStatus.running⟩ : LMState Int Int) n) ∧
    (∀ n, GetPoint (Compute ⟨5, 100⟩ (fun (p : Int) (d : Int) => p + d)
        (fun (v : Int) (d : Int) => v + d) (fun _ => true) (fun _ => TrialOutcome.rejected)
        ⟨[⟨false, 3⟩], [4], 1 / 10000, 2, 0, BAStatus.running⟩).2 n =
      GetPoint (⟨[⟨false, 3⟩], [4], 1 / 10000, 2, 0, BAStatus.running⟩ : LMState Int Int) n) ∧
    (Compute ⟨5, 100⟩ (fun (p : Int) (d : Int) => p + d) (fun (v : Int) (d : Int) => v + d)
        (fun _ => true) (fun _ => TrialOutcome.rejected)
        ⟨[⟨false, 3⟩], [4], 1 / 10000, 2, 0, BAStatus.running⟩).2.status = BAStatus.aborted :=
  abort_before_first_iteration ⟨5, 100⟩ (fun (p : Int) (d : Int) => p + d)
    (fun (v : Int) (d : Int) => v + d) (fun _ => true) (fun _ => TrialOutcome.rejected)
    ⟨[⟨false, 3⟩], [4], 1 / 10000, 2, 0, BAStatus.running⟩ rfl rfl

lemma lmReject_cameras {P V : Type} (cfg : LMConfig) (st : LMState P V) :
    (lmReject cfg st).cameras = st.cameras := by
  simp only [lmReject, ModifyLambda_BadStep]
  split <;> rfl

lemma lmReject_points {P V : Type} (cfg : LMConfig) (st : LMState P V) :
    (lmReject cfg st).points = st.points := by
  simp only [lmReject, ModifyLambda_BadStep]
  split <;> rfl

lemma commitCams_fixed {P D6 : Type} (applyPose : P → D6 → P) (dc : ℕ → D6)
    (cam : Camera P) (hfix : cam.bFixed = true) :
    ∀ (l : List (Camera P)) (j i : ℕ), l[i]? = some cam →
      (commitCams applyPose dc j l)[i]? = some cam := by
  intro l
  induction l with
  | nil => intro j i h; simp at h
  | cons a rest ih =>
    intro j i h
    cases i with
    | zero =>
      simp only [List.getElem?_cons_zero] at h
      have ha := Option.some.inj h
      subst ha
      simp [commitCams, hfix]
    | succ k =>
      simp only [List.getElem?_cons_succ] at h
      simp only [commitCams, List.getElem?_cons_succ]
      exact ih (j + 1) k h

lemma lmIter_fixed {P V D6 D3 : Type} (cfg : LMConfig) (applyPose : P → D6 → P)
    (applyPoint : V → D3 → V) (st : LMState P V) (out : TrialOutcome D6 D3)
    (i : ℕ) (cam : Camera P) (hfix : cam.bFixed = true)
    (h : st.cameras[i]? = some cam) :
    (lmIter cfg applyPose applyPoint st out).cameras[i]? = some cam := by
  cases out with
  | solveFailed =>
    show (lmReject cfg st).cameras[i]? = some cam
    rw [lmReject_cameras]; exact h
  | rejected =>
    show (lmReject cfg st).cameras[i]? = some cam
    rw [lmReject_cameras]; exact h
  | accepted dc dp conv =>
    show (commitCams applyPose dc 0 st.cameras)[i]? = some cam
    exact commitCams_fixed applyPose dc cam hfix st.cameras 0 i h

lemma computeLoop_fixed {P V D6 D3 : Type} (cfg : LMConfig) (applyPose : P → D6 → P)
    (applyPoint : V → D3 → V) (abortAt : ℕ → Bool) (outs : ℕ → TrialOutcome D6 D3)
    (i : ℕ) (cam : Camera P) (hfix : cam.bFixed = true) :
    ∀ (fuel n : ℕ) (st : LMState P V), st.cameras[i]? = some cam →
      (computeLoop cfg applyPose applyPoint abortAt outs fuel n st).cameras[i]? =
        some cam := by
  intro fuel
  induction fuel with
  | zero => intro n st h; exact h
  | succ fuel ih =>
    intro n st h
    simp only [computeLoop]
    by_cases hs : st.status ≠ BAStatus.running
    · rw [if_pos hs]; exact h
    · rw [if_neg hs]
      by_cases ha : abortAt n = true
      · rw [if_pos ha]; exact h
      · rw [if_neg ha]
        by_cases hm : cfg.maxIterations ≤ n
        · rw [if_pos hm]; exact h
        · rw [if_neg hm]
          exact ih (n + 1) _ (lmIter_fixed cfg applyPose applyPoint st (outs n) i cam hfix h)

/-- Claim C4: a camera added with the fixed flag set keeps exactly the pose
it was added with, read back through GetCamera after Compute returns, for
every input graph, abort flag, trial-outcome history and terminal state.
(Its measurements still enter residual evaluation: in the model the oracle
outcome of each iteration is computed over all measurements, and fixedness
only suppresses the pose update, mirroring spec section 3.) -/
theorem fixed_camera_pose_unchanged {P V D6 D3 : Type} (cfg : LMConfig)
    (applyPose : P → D6 → P) (applyPoint : V → D3 → V) (abortAt : ℕ → Bool)
    (outs : ℕ → TrialOutcome D6 D3) (st0 : LMState P V) (i : ℕ) (cam : Camera P)
    (h : st0.cameras[i]? = some cam) (hfix : cam.bFixed = true) :
    GetCamera (Compute cfg applyPose applyPoint abortAt outs st0).2 i =
      some cam.se3CfW ∧
    GetCamera st0 i = some cam.se3CfW := by
  constructor
  · simp only [Compute, GetCamera]
    rw [computeLoop_fixed cfg applyPose applyPoint abortAt outs i cam hfix
      (cfg.maxIterations + 1) 0 st0 h]
    rfl
  · simp only [GetCamera]
    rw [h]
    rfl

/-- Witness for C4: one fixed camera with pose 9 next to a free camera; a
run of accepted steps leaves the fixed camera's pose at 9. -/
theorem fixed_camera_pose_unchanged_witness :
    GetCamera (Compute ⟨5, 100⟩ (fun (p : Int) (d : Int) => p + d)
        (fun (v : Int) (d : Int) => v + d) (fun _ => false)
        (fun _ => TrialOutcome.accepted (fun _ => 1) (fun _ => 1) false)
        ⟨[⟨false, 3⟩, ⟨true, 9⟩], [4], 1 / 10000, 2, 0, BAStatus.running⟩).2 1 =
      some (⟨true, 9⟩ : Camera Int).se3CfW ∧
    GetCamera (⟨[⟨false, 3⟩, ⟨true, 9⟩], [4], 1 / 10000, 2, 0,
        BAStatus.running⟩ : LMState Int Int) 1 =
      some (⟨true, 9⟩ : Camera Int).se3CfW :=
  fixed_camera_pose_unchanged ⟨5, 100⟩ (fun (p : Int) (d : Int) => p + d)
    (fun (v : Int) (d : Int) => v + d) (fun _ => false)
    (fun _ => TrialOutcome.accepted (fun _ => 1) (fun _ => 1) false)
    ⟨[⟨false, 3⟩, ⟨true, 9⟩], [4], 1 / 10000, 2, 0, BAStatus.running⟩ 1
    ⟨true, 9⟩ rfl rfl

/-- The camera/point increment pairs of the accepted trials among the k
iterations starting at iteration n, in order. -/
def acceptedCommits {D6 D3 : Type} (outs : ℕ → TrialOutcome D6 D3) :
    ℕ → ℕ → List ((ℕ → D6) × (ℕ → D3))
  | _, 0 => []
  | n, k + 1 =>
    (match outs n with
     | TrialOutcome.accepted dc dp _ => [(dc, dp)]
     | _ => []) ++ acceptedCommits outs (n + 1) k

/-- Replay a list of accepted camera-increment commits, each applied
whole. -/
def applyAcceptedCams {P D6 D3 : Type} (applyPose : P → D6 → P)
    (cams : List (Camera P)) (l : List ((ℕ → D6) × (ℕ → D3))) : List (Camera P) :=
  l.foldl (fun cs pr => commitCams applyPose pr.1 0 cs) cams

/-- Replay a list of accepted point-increment commits, each applied
whole. -/
def applyAcceptedPoints {V D6 D3 : Type} (applyPoint : V → D3 → V)
    (pts : List V) (l : List ((ℕ → D6) × (ℕ → D3))) : List V :=
  l.foldl (fun ps pr => commitPoints applyPoint pr.2 0 ps) pts

lemma computeLoop_commits {P V D6 D3 : Type} (cfg : LMConfig)
    (applyPose : P → D6 → P) (applyPoint : V → D3 → V) (abortAt : ℕ → Bool)
    (outs : ℕ → TrialOutcome D6 D3) :
    ∀ (fuel n : ℕ) (st : LMState P V), ∃ k,
      (computeLoop cfg applyPose applyPoint abortAt outs fuel n st).cameras =
        applyAcceptedCams applyPose st.cameras (acceptedCommits outs n k) ∧
      (computeLoop cfg applyPose applyPoint abortAt outs fuel n st).points =
        applyAcceptedPoints applyPoint st.points (acceptedCommits outs n k) := by
  intro fuel
  induction fuel with
  | zero => intro n st; exact ⟨0, rfl, rfl⟩
  | succ fuel ih =>
    intro n st
    simp only [computeLoop]
    by_cases hs : st.status ≠ BAStatus.running
    · rw [if_pos hs]; exact ⟨0, rfl, rfl⟩
    · rw [if_neg hs]
      by_cases ha : abortAt n = true
      · rw [if_pos ha]; exact ⟨0, rfl, rfl⟩
      · rw [if_neg ha]
        by_cases hm : cfg.maxIterations ≤ n
        · rw [if_pos hm]; exact ⟨0, rfl, rfl⟩
        · rw [if_neg hm]
          cases hout : outs n with
          | solveFailed =>
            obtain ⟨k, hc, hp⟩ := ih (n + 1)
              (lmIter cfg applyPose applyPoint st TrialOutcome.solveFailed)
            refine ⟨k + 1, ?_, ?_⟩
            · rw [hc]
              show applyAcceptedCams applyPose (lmReject cfg st).cameras _ = _
              rw [lmReject_cameras]
              simp [acceptedCommits, hout]
            · rw [hp]
              show applyAcceptedPoints applyPoint (lmReject cfg st).points _ = _
              rw [lmReject_points]
              simp [acceptedCommits, hout]
          | rejected =>
            obtain ⟨k, hc, hp⟩ := ih (n + 1)
              (lmIter cfg applyPose applyPoint st TrialOutcome.rejected)
            refine ⟨k + 1, ?_, ?_⟩
            · rw [hc]
              show applyAcceptedCams applyPose (lmReject cfg st).cameras _ = _
              rw [lmReject_cameras]
              simp [acceptedCommits, hout]
            · rw [hp]
              show applyAcceptedPoints applyPoint (lmReject cfg st).points _ = _
              rw [lmReject_points]
              simp [acceptedCommits, hout]
          | accepted dc dp conv =>
            obtain ⟨k, hc, hp⟩ := ih (n + 1)
              (lmIter cfg applyPose applyPoint st (TrialOutcome.accepted dc dp conv))
            refine ⟨k + 1, ?_, ?_⟩
            · rw [hc]
              show applyAcceptedCams applyPose (commitCams applyPose dc 0 st.cameras) _ = _
              simp [acceptedCommits, hout, applyAcceptedCams]
            · rw [hp]
              show applyAcceptedPoints applyPoint
                (commitPoints applyPoint dp 0 st.points) _ = _
              simp [acceptedCommits, hout, applyAcceptedPoints]

/-- Claim C2: when Compute terminates in FAILED, the cameras and points of
the final state are exactly the initial ones transformed by whole,
atomically committed accepted steps: some replay of the accepted increments
reproduces them, so no trial increment is left partially applied.  (In the
model this invariant holds for every terminal state; the claim instantiates
it at FAILED.) -/
theorem failed_leaves_committed_state {P V D6 D3 : Type} (cfg : LMConfig)
    (applyPose : P → D6 → P) (applyPoint : V → D3 → V) (abortAt : ℕ → Bool)
    (outs : ℕ → TrialOutcome D6 D3) (st0 : LMState P V)
    (_hfail : (Compute cfg applyPose applyPoint abortAt outs st0).2.status =
      BAStatus.failed) :
    ∃ k,
      (Compute cfg applyPose applyPoint abortAt outs st0).2.cameras =
        applyAcceptedCams applyPose st0.cameras (acceptedCommits outs 0 k) ∧
      (Compute cfg applyPose applyPoint abortAt outs st0).2.points =
        applyAcceptedPoints applyPoint st0.points (acceptedCommits outs 0 k) :=
  computeLoop_commits cfg applyPose applyPoint abortAt outs
    (cfg.maxIterations + 1) 0 st0

/-- Witness for C2: a run whose first solve fails and whose damping passes
the maximum immediately, ending FAILED with the initial camera and point
reproduced by replaying the (empty) accepted commits. -/
theorem failed_leaves_committed_state_witness :
    ∃ k,
      (Compute ⟨5, 1⟩ (fun (p : Int) (d : Int) => p + d) (fun (v : Int) (d : Int) => v + d)
          (fun _ => false) (fun _ => (TrialOutcome.solveFailed : TrialOutcome Int Int))
          ⟨[⟨false, 3⟩], [4], 1, 2, 0, BAStatus.running⟩).2.cameras =
        applyAcceptedCams (fun (p : Int) (d : Int) => p + d)
          [⟨false, 3⟩]
          (acceptedCommits (fun _ => (TrialOutcome.solveFailed : TrialOutcome Int Int)) 0 k) ∧
      (Compute ⟨5, 1⟩ (fun (p : Int) (d : Int) => p + d) (fun (v : Int) (d : Int) => v + d)
          (fun _ => false) (fun _ => (TrialOutcome.solveFailed : TrialOutcome Int Int))
          ⟨[⟨false, 3⟩], [4], 1, 2, 0, BAStatus.running⟩).2.points =
        applyAcceptedPoints (fun (v : Int) (d : Int) => v + d)
          [4]
          (acceptedCommits (fun _ => (TrialOutcome.solveFailed : TrialOutcome Int Int)) 0 k) :=
  failed_leaves_committed_state ⟨5, 1⟩ (fun (p : Int) (d : Int) => p + d)
    (fun (v : Int) (d : Int) => v + d) (fun _ => false)
    (fun _ => (TrialOutcome.solveFailed : TrialOutcome Int Int))
    ⟨[⟨false, 3⟩], [4], 1, 2, 0, BAStatus.running⟩
    (by
      norm_num [Compute, computeLoop, lmIter, lmReject, ModifyLambda_BadStep]
      decide)

end PTAM
